import Mathlib

/-!
Shallow embedding of the orchestration core of the retrieval / relevance /
summarization pipeline (src/retrieval/tfidf_retrieval.py,
src/validation/relevance_checker.py, src/summarization/merge.py,
src/summarization/llm_summary.py, src/evaluation/local_metrics.py).

External collaborators (the OpenAI classification oracle, the HuggingFace
generation model, sklearn vectorization, numpy similarity values,
`json.loads`) are modelled as explicit parameters describing the outcome of
each round trip; all in-repository control flow, validation, retry,
extraction and fallback logic is translated directly from the Python source.
`Except.error` models an uncaught Python exception reaching the caller.
-/

/-- Document identifiers are heterogeneous in the repository: integers for the
local corpus, URL strings for web documents.  Python code calls `str(...)` on
them when building classification maps. -/
inductive DocId where
  | num (n : Int)
  | str (s : String)
deriving DecidableEq

/-- Models Python `str(doc_id)` as used at relevance_checker.py lines 80 and 98. -/
def DocId.toStr : DocId → String
  | .num n => toString n
  | .str s => s

/-- A document as consumed by the pipeline: a dict with `id` and `content`
keys, and an optional `score` key attached by the TF-IDF ranker. -/
structure Doc where
  id : DocId
  content : String
  score : Option ℚ := none
deriving DecidableEq

/-- A web retrieval result as consumed by merge.py: a dict with `url`,
`content`, and possibly a `relevance` key (`doc.get("relevance")` yields
`none` when the key is absent). -/
structure WebResult where
  url : String
  content : String
  relevance : Option String := none
deriving DecidableEq

/-- A web document as consumed by check_relevance: a dict with `id` and
`content` keys (relevance_checker.py line 24). -/
structure CheckDoc where
  id : DocId
  content : String
deriving DecidableEq

/-- Python dict lookup on a string-keyed dict represented as an association
list in insertion order (keys unique by construction). -/
def dictGet {α : Type} (m : List (String × α)) (k : String) : Option α :=
  (m.find? (fun p => decide (p.1 = k))).map (fun p => p.2)

/-- Python dict assignment `m[k] = v`: overwrite in place when the key is
present (keeping its position), otherwise append at the end.  This is exactly
CPython's insertion-order semantics for dicts. -/
def dictInsert {α : Type} (m : List (String × α)) (k : String) (v : α) :
    List (String × α) :=
  if m.any (fun p => decide (p.1 = k)) then
    m.map (fun p => if p.1 = k then (k, v) else p)
  else
    m ++ [(k, v)]

/-- Outcome of one attempt of the classification round trip
(relevance_checker.py lines 66-75): either the OpenAI invocation raised or
`json.loads` failed (`fail`), or a JSON object was parsed (`parsed`, the
object as an association list in key order). -/
inductive AttemptOutcome where
  | fail
  | parsed (m : List (String × String))

/-- Validation and default fill of a parsed classification map
(relevance_checker.py lines 77-89): for each input document, keep a parsed
value only when it is exactly "R" or "NR", coerce any other parsed value to
"NR", and default a missing id to "NR". -/
def validate_fill (webDocs : List CheckDoc) (classifications : List (String × String)) :
    List (String × String) :=
  webDocs.foldl (fun result doc =>
    match dictGet classifications doc.id.toStr with
    | some value => dictInsert result doc.id.toStr (if value = "R" ∨ value = "NR" then value else "NR")
    | none => dictInsert result doc.id.toStr "NR") []

/-- Value that validate_fill stores for one document (helper for the fold lemmas). -/
def fillValue (classifications : List (String × String)) (doc : CheckDoc) : String :=
  match dictGet classifications doc.id.toStr with
  | some value => if value = "R" ∨ value = "NR" then value else "NR"
  | none => "NR"

/-- Terminal fallback `{str(doc['id']): "NR" for doc in web_docs}`
(relevance_checker.py lines 98 and 101). -/
def all_NR (webDocs : List CheckDoc) : List (String × String) :=
  webDocs.foldl (fun m doc => dictInsert m doc.id.toStr "NR") []

/-- The retry loop `for attempt in range(max_retries)` of relevance_checker.py
lines 65-98, followed by the unreachable line-101 fallthrough.  `attempt` is
the index of the current attempt, the last argument the number of loop
iterations still to run. -/
def attempt_loop (webDocs : List CheckDoc) (attempts : Nat → AttemptOutcome)
    (attempt : Nat) : Nat → List (String × String)
  | 0 => all_NR webDocs
  | remaining + 1 =>
    match attempts attempt with
    | .parsed m => validate_fill webDocs m
    | .fail =>
      if remaining = 0 then all_NR webDocs
      else attempt_loop webDocs attempts (attempt + 1) remaining

/-- check_relevance (relevance_checker.py lines 18-101).  The process
environment is the `apiKey` parameter (`os.getenv("OPENAI_API_KEY")`, `none`
when unset, and Python `if not api_key` is also true for the empty string);
the classification oracle is the `attempts` parameter giving the outcome of
each attempted round trip.  The prompt built from `query` and the documents
is consumed only by the external oracle and has no bearing on control flow. -/
def check_relevance (apiKey : Option String) (query : String)
    (webDocs : List CheckDoc) (attempts : Nat → AttemptOutcome) :
    Except String (List (String × String)) :=
  if webDocs.isEmpty then
    .ok []
  else if apiKey.getD "" = "" then
    .error "OPENAI_API_KEY not set in environment"
  else
    .ok (attempt_loop webDocs attempts 0 3)

/-- merge_docs_lists (merge.py lines 33-40): filter web docs to those whose
`relevance` is "R", project each to `{id: url, content: content}`, and append
after the local docs. -/
def merge_docs_lists (local_docs : List Doc) (web_docs : List WebResult) : List Doc :=
  let relevant_web := web_docs.filter (fun doc => decide (doc.relevance = some "R"))
  let transformed_web := relevant_web.map
    (fun doc => ({ id := .str doc.url, content := doc.content } : Doc))
  local_docs ++ transformed_web

/-- Python negative-start slice `xs[-k:]`.  For `k = 0` this is `xs[0:]`,
i.e. the whole list, because `-0 == 0`; for `k ≥ 1` it is the last
`min k xs.length` elements. -/
def pyLastSlice {α : Type} (k : Nat) (xs : List α) : List α :=
  if k = 0 then xs else xs.drop (xs.length - k)

/-- Stable insertion of index `i` into an index list sorted ascending by the
scores `xs` (helper for `argsort`). -/
def insertIdx (xs : List ℚ) (i : Nat) : List Nat → List Nat
  | [] => [i]
  | j :: rest =>
    if xs.getD i 0 ≤ xs.getD j 0 then i :: j :: rest
    else j :: insertIdx xs i rest

/-- Models `np.argsort(similarities)`: the indices `0 .. n-1` sorted
ascending by their similarity value.  (The claims under verification depend
only on the output being a permutation of the index range; an insertion sort
realizes that specification executably.) -/
def argsort (xs : List ℚ) : List Nat :=
  (List.range xs.length).foldr (insertIdx xs) []

/-- Body of the result loop of tfidf_retrieval.py lines 41-45: guard
`idx < len(evidence)`, copy the document and attach its similarity as
`score`. -/
def scoreAt (evidence : List Doc) (similarities : List ℚ) (idx : Nat) : Option Doc :=
  if h : idx < evidence.length then
    some { evidence.get ⟨idx, h⟩ with score := some (similarities.getD idx 0) }
  else none

/-- retrieve_local_docs (tfidf_retrieval.py lines 6-47).  The sklearn
vectorize-and-cosine step is the external `sim` parameter mapping the query
and the document contents to the similarity row (one value per document);
everything else — the empty-corpus short circuit, `argsort`, the `[-k:]`
slice, the `[::-1]` reversal and the guarded result loop — is repository
logic translated directly. -/
def retrieve_local_docs (sim : String → List String → List ℚ) (query : String)
    (evidence : List Doc) (k : Nat) : List Doc :=
  if evidence.isEmpty then []
  else
    let doc_contents := evidence.map (fun doc => doc.content)
    let similarities := sim query doc_contents
    let top_k_indices := (pyLastSlice k (argsort similarities)).reverse
    top_k_indices.filterMap (scoreAt evidence similarities)

/-- recall_at_k (local_metrics.py lines 1-16): take the first k retrieved
ids, form sets, intersect with the gold set, divide by the gold set size,
with an explicit 0.0 when the gold set is empty.  Python sets are modelled by
`dedup` (cardinality) and the division by exact rational arithmetic. -/
def recall_at_k (retrieved_ids : List Int) (gold_ids : List Int) (k : Nat) : ℚ :=
  let retrieved_top_k := retrieved_ids.take k
  let retrieved_set := retrieved_top_k.dedup
  let gold_set := gold_ids.dedup
  let relevant_retrieved := retrieved_set.filter (fun x => decide (x ∈ gold_set))
  if gold_set.length = 0 then 0
  else (relevant_retrieved.length : ℚ) / (gold_set.length : ℚ)

/-- JSON values as produced by `json.loads` (numbers as exact rationals). -/
inductive JsonVal where
  | str (s : String)
  | num (q : ℚ)
  | bool (b : Bool)
  | null
  | arr (xs : List JsonVal)
  | obj (fields : List (String × JsonVal))

/-- A Python document id embedded into a JSON value (llm_summary.py line
125/134: `doc['id']` placed directly into the fallback dict). -/
def DocId.toJson : DocId → JsonVal
  | .num n => .num (n : ℚ)
  | .str s => .str s

/-- Models Python `str.strip()`: drop whitespace from both ends. -/
def pyStrip (s : String) : String :=
  String.mk (((s.data.dropWhile Char.isWhitespace).reverse.dropWhile Char.isWhitespace).reverse)

/-- Scan for the first run of three consecutive backticks; on success return
the text before it and the text after it. -/
def splitAtTriple : List Char → Option (List Char × List Char)
  | a :: b :: c :: rest =>
    if a = '\x60' ∧ b = '\x60' ∧ c = '\x60' then some ([], rest)
    else
      match splitAtTriple (b :: c :: rest) with
      | some (pre, post) => some (a :: pre, post)
      | none => none
  | _ => none

/-- Fuelled scan collecting the contents of successive non-overlapping
delimited regions, leftmost-first with the nearest closing delimiter — which
is exactly what the non-greedy DOTALL `re.findall` at llm_summary.py line 117
matches. -/
def findBlocksFuel : Nat → List Char → List (List Char)
  | 0, _ => []
  | fuel + 1, cs =>
    match splitAtTriple cs with
    | none => []
    | some (_, rest) =>
      match splitAtTriple rest with
      | none => []
      | some (content, rest2) => content :: findBlocksFuel fuel rest2

/-- Models `re.findall` of the delimited-block pattern over the generation
text (llm_summary.py line 117).  Each collected block consumes at least six
characters, so fuel `cs.length` never truncates the scan. -/
def findBlocks (cs : List Char) : List (List Char) :=
  findBlocksFuel cs.length cs

/-- Python type name of a JSON value, as it appears in the `TypeError`
raised by item assignment on a non-dict (integral JSON numbers load as
`int`). -/
def pyTypeName : JsonVal → String
  | .str _ => "'str'"
  | .num _ => "'int'"
  | .bool _ => "'bool'"
  | .null => "'NoneType'"
  | .arr _ => "'list'"
  | .obj _ => "'dict'"

/-- Models `summary_data["query"] = query` (llm_summary.py line 143): item
assignment succeeds on a dict (overwriting or appending the key) and raises
`TypeError` on any other parsed JSON value. -/
def attachQuery (query : String) : JsonVal → Except String JsonVal
  | .obj fields => .ok (.obj (dictInsert fields "query" (.str query)))
  | j => .error (pyTypeName j ++ " object does not support item assignment")

/-- The two textually identical fallback records of llm_summary.py lines
125-131 and 134-140: both perspectives carry the claim texts, the raw
generation text, and the ids of the first three merged-corpus documents. -/
def fallbackSummary (response_text : String) (claims : List String)
    (merged_corpus : List Doc) : JsonVal :=
  let fallback_ids := (merged_corpus.take 3).map (fun doc => doc.id.toJson)
  .obj [("perspectives", .arr [
    .obj [("claim", .str (claims.getD 0 "")), ("perspective", .str response_text),
          ("evidence_docs", .arr fallback_ids)],
    .obj [("claim", .str (claims.getD 1 "")), ("perspective", .str response_text),
          ("evidence_docs", .arr fallback_ids)]])]

/-- The generation-error record of llm_summary.py lines 149-163. -/
def genErrorFallback (query : String) (claims : List String) (e : String) : JsonVal :=
  .obj [("query", .str query),
    ("perspectives", .arr [
      .obj [("claim", .str (claims.getD 0 "")),
            ("perspective", .str ("Could not generate perspective due to error: " ++ e)),
            ("evidence_docs", .arr [])],
      .obj [("claim", .str (claims.getD 1 "")),
            ("perspective", .str ("Could not generate perspective due to error: " ++ e)),
            ("evidence_docs", .arr [])]])]

/-- summarize_query (llm_summary.py lines 7-163).  `cudaAvailable` models
`torch.cuda.is_available()`; `parse` models `json.loads` returning `none` on
`JSONDecodeError`; `gen` models the whole guarded generation round trip
(tokenize, generate, decode), `Except.error` being a raised exception and
`Except.ok` the decoded response text.  The prompt built from the query, the
truncated document contents and the two claims is consumed only by the
external generator and has no bearing on control flow.  The `try` region of
lines 99-144 is the inner `Except`; its `.error` outcomes are converted by
the `except` handler of lines 146-163 into the degraded record. -/
def summarize_query (cudaAvailable : Bool) (parse : String → Option JsonVal)
    (gen : Except String String) (query : String) (merged_corpus : List Doc)
    (claims : List String) : Except String JsonVal :=
  if merged_corpus.isEmpty ∨ claims.length < 2 then
    .ok (.obj [("query", .str query), ("perspectives", .arr [])])
  else if cudaAvailable = false then
    .error "CUDA GPU is REQUIRED but not available!"
  else
    let tryBody : Except String JsonVal :=
      match gen with
      | .error e => .error e
      | .ok response_text =>
        match findBlocks response_text.data with
        | [] => attachQuery query (fallbackSummary response_text claims merged_corpus)
        | b :: bs =>
          let json_str := pyStrip (String.mk ((b :: bs).getLastD []))
          match parse json_str with
          | some summary_data => attachQuery query summary_data
          | none => attachQuery query (fallbackSummary response_text claims merged_corpus)
    match tryBody with
    | .ok summary => .ok summary
    | .error e => .ok (genErrorFallback query claims e)

/-- Similarity oracle with no lexical overlap: every document scores zero. -/
def simZero : String → List String → List ℚ :=
  fun _ contents => contents.map (fun _ => 0)

/-- Concrete one-document corpus for counterexamples and witnesses. -/
def docA : Doc := { id := .num 0, content := "alpha" }

/-- Concrete second document. -/
def docB : Doc := { id := .num 1, content := "beta" }

/-- Concrete three-document classification input with ids 0, 1, 2. -/
def checkDocs3 : List CheckDoc :=
  [⟨.num 0, "a"⟩, ⟨.num 1, "b"⟩, ⟨.num 2, "c"⟩]

/-- Oracle behaviour of the spec's concrete scenario: every attempt parses
the JSON object with "0" mapped to "R" and "2" mapped to "yes". -/
def oracleRYes : Nat → AttemptOutcome :=
  fun _ => .parsed [("0", "R"), ("2", "yes")]

/-- Oracle behaviour in which every attempt fails. -/
def oracleFail : Nat → AttemptOutcome :=
  fun _ => .fail

/-- Generation text whose single delimited block holds the JSON object with
an empty perspectives array. -/
def textEmptyPersp : String := "```\x7b\"perspectives\": []\x7d```"

/-- `json.loads` restricted to the block of `textEmptyPersp`. -/
def parseEmptyPersp : String → Option JsonVal :=
  fun s => if s = "\x7b\"perspectives\": []\x7d" then
    some (.obj [("perspectives", .arr [])]) else none

/-- Generation text whose single delimited block holds the JSON array `[]`. -/
def textArrayBlock : String := "```[]```"

/-- `json.loads` restricted to the block of `textArrayBlock`: a non-object
JSON value. -/
def parseArrayBlock : String → Option JsonVal :=
  fun s => if s = "[]" then some (.arr []) else none

/-- Generation text whose single delimited block holds a two-element
perspectives array. -/
def textTwoPersp : String := "```\x7b\"perspectives\": [1, 2]\x7d```"

/-- `json.loads` restricted to the block of `textTwoPersp`. -/
def parseTwoPersp : String → Option JsonVal :=
  fun s => if s = "\x7b\"perspectives\": [1, 2]\x7d" then
    some (.obj [("perspectives", .arr [.num 1, .num 2])]) else none

lemma find?_map_dictInsert_self {α : Type} (m : List (String × α)) (k : String) (v : α)
    (h : m.any (fun p => decide (p.1 = k)) = true) :
    (m.map (fun p => if p.1 = k then (k, v) else p)).find? (fun p => decide (p.1 = k)) =
      some (k, v) := by
  induction m with
  | nil => simp at h
  | cons q t ih =>
    rw [List.map_cons]
    by_cases hq : q.1 = k
    · rw [if_pos hq, List.find?_cons_of_pos _ (by simp)]
    · rw [if_neg hq, List.find?_cons_of_neg _ (by simp [hq])]
      apply ih
      simpa [hq] using h

lemma dictGet_dictInsert_self {α : Type} (m : List (String × α)) (k : String) (v : α) :
    dictGet (dictInsert m k v) k = some v := by
  unfold dictGet dictInsert
  by_cases h : m.any (fun p => decide (p.1 = k)) = true
  · rw [if_pos h, find?_map_dictInsert_self m k v h]
    rfl
  · rw [if_neg h, List.find?_append]
    have hnone : m.find? (fun p => decide (p.1 = k)) = none := by
      rw [List.find?_eq_none]
      intro p hp
      simp only [decide_eq_true_eq]
      intro hpk
      exact h (List.any_eq_true.mpr ⟨p, hp, by simp [hpk]⟩)
    rw [hnone, List.find?_cons_of_pos _ (by simp)]
    rfl

lemma find?_map_dictInsert_ne {α : Type} (m : List (String × α)) (k k' : String) (v : α)
    (h : k' ≠ k) :
    (m.map (fun p => if p.1 = k then (k, v) else p)).find? (fun p => decide (p.1 = k')) =
      m.find? (fun p => decide (p.1 = k')) := by
  induction m with
  | nil => rfl
  | cons q t ih =>
    rw [List.map_cons]
    by_cases hq : q.1 = k
    · rw [if_pos hq, List.find?_cons_of_neg _ (by simp [Ne.symm h]),
        List.find?_cons_of_neg _ (by simp [hq, Ne.symm h])]
      exact ih
    · by_cases hq' : q.1 = k'
      · rw [if_neg hq, List.find?_cons_of_pos _ (by simp [hq']),
          List.find?_cons_of_pos _ (by simp [hq'])]
      · rw [if_neg hq, List.find?_cons_of_neg _ (by simp [hq']),
          List.find?_cons_of_neg _ (by simp [hq'])]
        exact ih

lemma dictGet_dictInsert_ne {α : Type} (m : List (String × α)) (k k' : String) (v : α)
    (h : k' ≠ k) : dictGet (dictInsert m k v) k' = dictGet m k' := by
  unfold dictGet dictInsert
  by_cases hm : m.any (fun p => decide (p.1 = k)) = true
  · rw [if_pos hm, find?_map_dictInsert_ne m k k' v h]
  · rw [if_neg hm, List.find?_append]
    have hlast : ([(k, v)].find? (fun p => decide (p.1 = k'))) = none := by
      rw [List.find?_cons_of_neg _ (by simp [Ne.symm h])]
      rfl
    rw [hlast]
    cases m.find? (fun p => decide (p.1 = k')) <;> rfl

lemma isSome_dictGet_dictInsert {α : Type} (m : List (String × α)) (k k' : String) (v : α) :
    (dictGet (dictInsert m k v) k').isSome ↔ (dictGet m k').isSome ∨ k' = k := by
  by_cases h : k' = k
  · subst h
    simp [dictGet_dictInsert_self]
  · rw [dictGet_dictInsert_ne m k k' v h]
    simp [h]

lemma mem_dictInsert {α : Type} (p : String × α) (m : List (String × α)) (k : String) (v : α)
    (h : p ∈ dictInsert m k v) : p ∈ m ∨ p = (k, v) := by
  unfold dictInsert at h
  by_cases hm : m.any (fun q => decide (q.1 = k)) = true
  · rw [if_pos hm] at h
    rcases List.mem_map.mp h with ⟨q, hq, hqe⟩
    by_cases hqk : q.1 = k
    · right
      rw [← hqe, if_pos hqk]
    · left
      rwa [← hqe, if_neg hqk]
  · rw [if_neg hm] at h
    rcases List.mem_append.mp h with h1 | h2
    · exact Or.inl h1
    · exact Or.inr (List.mem_singleton.mp h2)

lemma isSome_dictGet_foldl (val : CheckDoc → String) (docs : List CheckDoc) :
    ∀ (init : List (String × String)) (k : String),
    (dictGet (docs.foldl (fun acc d => dictInsert acc d.id.toStr (val d)) init) k).isSome ↔
      (dictGet init k).isSome ∨ k ∈ docs.map (fun d => d.id.toStr) := by
  induction docs with
  | nil =>
    intro init k
    simp
  | cons d ds ih =>
    intro init k
    rw [List.foldl_cons, ih, isSome_dictGet_dictInsert]
    simp only [List.map_cons, List.mem_cons]
    tauto

lemma values_foldl (val : CheckDoc → String) (P : String → Prop)
    (hval : ∀ d, P (val d)) (docs : List CheckDoc) :
    ∀ (init : List (String × String)), (∀ p ∈ init, P p.2) →
    ∀ p ∈ docs.foldl (fun acc d => dictInsert acc d.id.toStr (val d)) init, P p.2 := by
  induction docs with
  | nil =>
    intro init hinit p hp
    exact hinit p hp
  | cons d ds ih =>
    intro init hinit p hp
    rw [List.foldl_cons] at hp
    refine ih _ ?_ p hp
    intro q hq
    rcases mem_dictInsert q init d.id.toStr (val d) hq with h1 | h2
    · exact hinit q h1
    · rw [h2]
      exact hval d

lemma fillValue_R_or_NR (classifications : List (String × String)) (doc : CheckDoc) :
    fillValue classifications doc = "R" ∨ fillValue classifications doc = "NR" := by
  unfold fillValue
  cases dictGet classifications doc.id.toStr with
  | none => right; rfl
  | some value =>
    show (if value = "R" ∨ value = "NR" then value else "NR") = "R" ∨
      (if value = "R" ∨ value = "NR" then value else "NR") = "NR"
    by_cases hv : value = "R" ∨ value = "NR"
    · rw [if_pos hv]
      exact hv
    · rw [if_neg hv]
      right
      rfl

lemma validate_fill_eq_foldl (webDocs : List CheckDoc) (classifications : List (String × String)) :
    validate_fill webDocs classifications =
      webDocs.foldl (fun acc d => dictInsert acc d.id.toStr (fillValue classifications d)) [] := by
  unfold validate_fill fillValue
  congr 1
  funext acc d
  cases dictGet classifications d.id.toStr <;> rfl

lemma all_NR_eq_foldl (webDocs : List CheckDoc) :
    all_NR webDocs =
      webDocs.foldl (fun acc d => dictInsert acc d.id.toStr ((fun _ => "NR") d)) [] := rfl

lemma isSome_dictGet_validate_fill (webDocs : List CheckDoc)
    (classifications : List (String × String)) (k : String) :
    (dictGet (validate_fill webDocs classifications) k).isSome ↔
      k ∈ webDocs.map (fun d => d.id.toStr) := by
  rw [validate_fill_eq_foldl, isSome_dictGet_foldl]
  simp [dictGet]

lemma values_validate_fill (webDocs : List CheckDoc)
    (classifications : List (String × String)) :
    ∀ p ∈ validate_fill webDocs classifications, p.2 = "R" ∨ p.2 = "NR" := by
  rw [validate_fill_eq_foldl]
  exact values_foldl (fillValue classifications) (fun v => v = "R" ∨ v = "NR")
    (fillValue_R_or_NR classifications) webDocs [] (by simp)

lemma isSome_dictGet_all_NR (webDocs : List CheckDoc) (k : String) :
    (dictGet (all_NR webDocs) k).isSome ↔ k ∈ webDocs.map (fun d => d.id.toStr) := by
  rw [all_NR_eq_foldl, isSome_dictGet_foldl]
  simp [dictGet]

lemma values_all_NR (webDocs : List CheckDoc) :
    ∀ p ∈ all_NR webDocs, p.2 = "NR" := by
  rw [all_NR_eq_foldl]
  exact values_foldl _ (fun v => v = "NR") (fun _ => rfl) webDocs [] (by simp)

lemma dictGet_all_NR (webDocs : List CheckDoc) (d : CheckDoc) (hd : d ∈ webDocs) :
    dictGet (all_NR webDocs) d.id.toStr = some "NR" := by
  have hsome : (dictGet (all_NR webDocs) d.id.toStr).isSome := by
    rw [isSome_dictGet_all_NR]
    exact List.mem_map.mpr ⟨d, hd, rfl⟩
  rcases Option.isSome_iff_exists.mp hsome with ⟨v, hv⟩
  have hfind : ∃ p, (all_NR webDocs).find? (fun p => decide (p.1 = d.id.toStr)) = some p ∧ p.2 = v := by
    unfold dictGet at hv
    cases hf : (all_NR webDocs).find? (fun p => decide (p.1 = d.id.toStr)) with
    | none => rw [hf] at hv; simp at hv
    | some p =>
      rw [hf] at hv
      exact ⟨p, rfl, by simpa using hv⟩
  rcases hfind with ⟨p, hp, hpv⟩
  have hmem := List.mem_of_find?_eq_some hp
  have := values_all_NR webDocs p hmem
  rw [hv, ← hpv, this]

lemma attempt_loop_succ (webDocs : List CheckDoc) (attempts : Nat → AttemptOutcome)
    (a n : Nat) :
    attempt_loop webDocs attempts a (n + 1) =
      match attempts a with
      | .parsed m => validate_fill webDocs m
      | .fail => if n = 0 then all_NR webDocs
          else attempt_loop webDocs attempts (a + 1) n := rfl

lemma attempt_loop_cases (webDocs : List CheckDoc) (attempts : Nat → AttemptOutcome) :
    ∀ (r a : Nat), attempt_loop webDocs attempts a r = all_NR webDocs ∨
      ∃ c, attempt_loop webDocs attempts a r = validate_fill webDocs c := by
  intro r
  induction r with
  | zero =>
    intro a
    left
    rfl
  | succ n ih =>
    intro a
    rw [attempt_loop_succ]
    cases attempts a with
    | parsed m =>
      right
      exact ⟨m, rfl⟩
    | fail =>
      by_cases hn : n = 0
      · rw [if_pos hn]
        left
        rfl
      · rw [if_neg hn]
        exact ih (a + 1)

lemma attempt_loop_all_fail (webDocs : List CheckDoc) (attempts : Nat → AttemptOutcome)
    (h0 : attempts 0 = .fail) (h1 : attempts 1 = .fail) (h2 : attempts 2 = .fail) :
    attempt_loop webDocs attempts 0 3 = all_NR webDocs := by
  have e : attempt_loop webDocs attempts 0 3 =
      (match attempts 0 with
       | .parsed m => validate_fill webDocs m
       | .fail =>
         match attempts 1 with
         | .parsed m => validate_fill webDocs m
         | .fail =>
           match attempts 2 with
           | .parsed m => validate_fill webDocs m
           | .fail => all_NR webDocs) := rfl
  rw [e, h0, h1, h2]

/-- C1 (amended): for every query, every non-empty list of input documents
and every oracle whose 3 attempts all fail, check_relevance returns — rather
than raises — the map assigning "NR" to every input document id, PROVIDED the
process environment carries a non-empty OPENAI_API_KEY; with the key unset or
empty the function instead raises ValueError before any attempt (see the
counterexample). -/
theorem check_relevance_all_attempts_fail (apiKey : Option String) (query : String)
    (webDocs : List CheckDoc) (attempts : Nat → AttemptOutcome)
    (hkey : apiKey.getD "" ≠ "") (hdocs : webDocs ≠ [])
    (hfail : ∀ i, i < 3 → attempts i = .fail) :
    check_relevance apiKey query webDocs attempts = .ok (all_NR webDocs) ∧
    ∀ d ∈ webDocs, dictGet (all_NR webDocs) d.id.toStr = some "NR" := by
  refine ⟨?_, fun d hd => dictGet_all_NR webDocs d hd⟩
  unfold check_relevance
  rw [if_neg (by simp [List.isEmpty_iff, hdocs]), if_neg hkey,
    attempt_loop_all_fail webDocs attempts (hfail 0 (by norm_num)) (hfail 1 (by norm_num))
      (hfail 2 (by norm_num))]

/-- C1 witness: a concrete all-fail oracle with the key present yields the
all-"NR" map. -/
theorem check_relevance_all_attempts_fail_witness :
    (some "sk" : Option String).getD "" ≠ "" ∧ checkDocs3 ≠ [] ∧
    (check_relevance (some "sk") "q" checkDocs3 oracleFail = .ok (all_NR checkDocs3) ∧
      ∀ d ∈ checkDocs3, dictGet (all_NR checkDocs3) d.id.toStr = some "NR") :=
  ⟨by decide, by decide,
    check_relevance_all_attempts_fail (some "sk") "q" checkDocs3 oracleFail (by decide)
      (by decide) (fun _ _ => rfl)⟩

/-- C1 counterexample: with OPENAI_API_KEY unset in the process environment,
check_relevance on a non-empty document list with an all-fail oracle raises
ValueError instead of returning the all-"NR" map, so the claim's "regardless
of the process environment" is false on the code. -/
theorem check_relevance_missing_key_raises :
    check_relevance none "q" checkDocs3 oracleFail =
      Except.error "OPENAI_API_KEY not set in environment" := rfl

/-- C4: every map check_relevance returns has key set exactly the string
forms of the input document ids (every input id present, no extraneous key),
and every value is "R" or "NR". -/
theorem check_relevance_keyset_values (apiKey : Option String) (query : String)
    (webDocs : List CheckDoc) (attempts : Nat → AttemptOutcome)
    (m : List (String × String))
    (h : check_relevance apiKey query webDocs attempts = Except.ok m) :
    (∀ k, (dictGet m k).isSome ↔ k ∈ webDocs.map (fun d => d.id.toStr)) ∧
    ∀ p ∈ m, p.2 = "R" ∨ p.2 = "NR" := by
  unfold check_relevance at h
  by_cases hemp : webDocs.isEmpty = true
  · rw [if_pos hemp] at h
    injection h with h'
    subst h'
    have hnil : webDocs = [] := List.isEmpty_iff.mp hemp
    subst hnil
    constructor
    · intro k
      simp [dictGet]
    · intro p hp
      simp at hp
  · rw [if_neg hemp] at h
    by_cases hkey : apiKey.getD "" = ""
    · rw [if_pos hkey] at h
      exact Except.noConfusion h
    · rw [if_neg hkey] at h
      injection h with h'
      subst h'
      rcases attempt_loop_cases webDocs attempts 3 0 with hc | ⟨c, hc⟩ <;> rw [hc]
      · exact ⟨fun k => isSome_dictGet_all_NR webDocs k,
          fun p hp => Or.inr (values_all_NR webDocs p hp)⟩
      · exact ⟨fun k => isSome_dictGet_validate_fill webDocs c k,
          values_validate_fill webDocs c⟩

/-- C4 witness: the spec's concrete scenario — oracle output maps "0" to "R"
and "2" to "yes" for input ids 0, 1, 2 — yields exactly the map "0" to "R",
"1" to "NR" (missing id defaulted), "2" to "NR" (unrecognized value
coerced), and the general key-set/value invariant holds there. -/
theorem check_relevance_keyset_values_witness :
    check_relevance (some "sk") "q" checkDocs3 oracleRYes =
      Except.ok [("0", "R"), ("1", "NR"), ("2", "NR")] ∧
    ((∀ k, (dictGet [("0", "R"), ("1", "NR"), ("2", "NR")] k).isSome ↔
        k ∈ checkDocs3.map (fun d => d.id.toStr)) ∧
      ∀ p ∈ [("0", "R"), ("1", "NR"), ("2", "NR")], p.2 = "R" ∨ p.2 = "NR") :=
  ⟨rfl, check_relevance_keyset_values (some "sk") "q" checkDocs3 oracleRYes _ rfl⟩

/-- C5: the merged list is the local documents, in order, followed by the
"R"-labeled web documents, in order, projected to id = url / content =
content; its length is the local length plus the count of "R"-labeled web
documents. -/
theorem merge_docs_lists_spec (local_docs : List Doc) (web_docs : List WebResult) :
    (merge_docs_lists local_docs web_docs).length =
      local_docs.length + web_docs.countP (fun doc => decide (doc.relevance = some "R")) ∧
    (merge_docs_lists local_docs web_docs).take local_docs.length = local_docs ∧
    (merge_docs_lists local_docs web_docs).drop local_docs.length =
      (web_docs.filter (fun doc => decide (doc.relevance = some "R"))).map
        (fun doc => ({ id := .str doc.url, content := doc.content } : Doc)) := by
  unfold merge_docs_lists
  refine ⟨?_, ?_, ?_⟩
  · rw [List.length_append, List.length_map, List.countP_eq_length_filter]
  · exact List.take_left _ _
  · exact List.drop_left _ _

lemma length_insertIdx (xs : List ℚ) (i : Nat) (l : List Nat) :
    (insertIdx xs i l).length = l.length + 1 := by
  induction l with
  | nil => rfl
  | cons j rest ih =>
    unfold insertIdx
    by_cases h : xs.getD i 0 ≤ xs.getD j 0
    · rw [if_pos h]
      simp
    · rw [if_neg h]
      simp [ih]

lemma mem_insertIdx (xs : List ℚ) (i : Nat) (l : List Nat) (j : Nat)
    (h : j ∈ insertIdx xs i l) : j = i ∨ j ∈ l := by
  induction l with
  | nil =>
    unfold insertIdx at h
    exact Or.inl (List.mem_singleton.mp h)
  | cons a rest ih =>
    unfold insertIdx at h
    by_cases hc : xs.getD i 0 ≤ xs.getD a 0
    · rw [if_pos hc] at h
      rcases List.mem_cons.mp h with h1 | h2
      · exact Or.inl h1
      · exact Or.inr h2
    · rw [if_neg hc] at h
      rcases List.mem_cons.mp h with h1 | h2
      · exact Or.inr (by simp [h1])
      · rcases ih h2 with hh | hh
        · exact Or.inl hh
        · exact Or.inr (List.mem_cons_of_mem _ hh)

lemma length_foldr_insertIdx (xs : List ℚ) (l acc : List Nat) :
    (l.foldr (insertIdx xs) acc).length = l.length + acc.length := by
  induction l with
  | nil => simp
  | cons a rest ih =>
    rw [List.foldr_cons, length_insertIdx, ih]
    simp
    omega

lemma length_argsort (xs : List ℚ) : (argsort xs).length = xs.length := by
  unfold argsort
  rw [length_foldr_insertIdx]
  simp

lemma mem_foldr_insertIdx (xs : List ℚ) (l acc : List Nat) (j : Nat)
    (h : j ∈ l.foldr (insertIdx xs) acc) : j ∈ l ∨ j ∈ acc := by
  induction l with
  | nil => exact Or.inr h
  | cons a rest ih =>
    rw [List.foldr_cons] at h
    rcases mem_insertIdx xs a _ j h with h1 | h2
    · exact Or.inl (by simp [h1])
    · rcases ih h2 with hh | hh
      · exact Or.inl (List.mem_cons_of_mem _ hh)
      · exact Or.inr hh

lemma mem_argsort_lt (xs : List ℚ) (j : Nat) (h : j ∈ argsort xs) : j < xs.length := by
  unfold argsort at h
  rcases mem_foldr_insertIdx xs _ [] j h with h1 | h2
  · exact List.mem_range.mp h1
  · simp at h2

lemma length_filterMap_scoreAt (evidence : List Doc) (similarities : List ℚ)
    (idxs : List Nat) (h : ∀ i ∈ idxs, i < evidence.length) :
    (idxs.filterMap (scoreAt evidence similarities)).length = idxs.length := by
  induction idxs with
  | nil => rfl
  | cons i rest ih =>
    have hi : i < evidence.length := h i (by simp)
    have hs : scoreAt evidence similarities i =
        some { evidence.get ⟨i, hi⟩ with score := some (similarities.getD i 0) } := by
      unfold scoreAt
      rw [dif_pos hi]
    rw [List.filterMap_cons, hs]
    simp only [List.length_cons]
    rw [ih (fun j hj => h j (List.mem_cons_of_mem _ hj))]

/-- C3 (amended): for every `k ≥ 1`, retrieve_local_docs returns exactly
`min k |D|` documents — in particular `[]` on an empty corpus and all `|D|`
documents (no padding, no error) when `k > |D|`.  For `k = 0` the claim
fails: the Python slice `[-0:]` degenerates to the whole array, so all `|D|`
documents are returned (see the counterexample). -/
theorem retrieve_local_docs_length (sim : String → List String → List ℚ) (query : String)
    (evidence : List Doc) (k : Nat)
    (hsim : (sim query (evidence.map (fun doc => doc.content))).length = evidence.length)
    (hk : 1 ≤ k) :
    (retrieve_local_docs sim query evidence k).length = min k evidence.length := by
  unfold retrieve_local_docs
  by_cases hemp : evidence.isEmpty = true
  · rw [if_pos hemp]
    have : evidence = [] := List.isEmpty_iff.mp hemp
    simp [this]
  · rw [if_neg hemp]
    have hlen : (argsort (sim query (evidence.map (fun doc => doc.content)))).length =
        evidence.length := by
      rw [length_argsort, hsim]
    have hmem : ∀ i ∈ (pyLastSlice k
        (argsort (sim query (evidence.map (fun doc => doc.content))))).reverse,
        i < evidence.length := by
      intro i hi
      rw [List.mem_reverse] at hi
      have hin : i ∈ argsort (sim query (evidence.map (fun doc => doc.content))) := by
        unfold pyLastSlice at hi
        by_cases hk0 : k = 0
        · rw [if_pos hk0] at hi
          exact hi
        · rw [if_neg hk0] at hi
          exact List.mem_of_mem_drop hi
      have h2 := mem_argsort_lt _ i hin
      rw [hsim] at h2
      exact h2
    rw [length_filterMap_scoreAt _ _ _ hmem, List.length_reverse]
    unfold pyLastSlice
    rw [if_neg (by omega), List.length_drop, hlen]
    omega

/-- C3 witness: with a zero-similarity oracle over a two-document corpus and
k = 5, exactly min 5 2 = 2 documents come back. -/
theorem retrieve_local_docs_length_witness :
    (simZero "q" ([docA, docB].map (fun doc => doc.content))).length =
      ([docA, docB] : List Doc).length ∧
    1 ≤ 5 ∧
    (retrieve_local_docs simZero "q" [docA, docB] 5).length =
      min 5 ([docA, docB] : List Doc).length :=
  ⟨rfl, by norm_num,
    retrieve_local_docs_length simZero "q" [docA, docB] 5 rfl (by norm_num)⟩

/-- C3 counterexample: at k = 0 on a one-document corpus the result has
length 1, not min 0 1 = 0 — `similarities[-0:]` is the whole array. -/
theorem retrieve_local_docs_k0_counterexample :
    (retrieve_local_docs simZero "q" [docA] 0).length ≠
      min 0 ([docA] : List Doc).length := by decide

/-- C9: recall_at_k is the cardinality of the intersection of the first k
retrieved ids with the gold id set, divided by the number of distinct gold
ids, and is 0 when the gold list is empty. -/
theorem recall_at_k_spec (retrieved_ids gold_ids : List Int) (k : Nat) :
    recall_at_k retrieved_ids gold_ids k =
      if gold_ids = [] then 0
      else (((retrieved_ids.take k).toFinset ∩ gold_ids.toFinset).card : ℚ) /
        (gold_ids.toFinset.card : ℚ) := by
  unfold recall_at_k
  by_cases hg : gold_ids = []
  · subst hg
    simp
  · rw [if_neg hg, if_neg (by simp [List.length_eq_zero, List.dedup_eq_nil, hg])]
    have hnodup : ((retrieved_ids.take k).dedup.filter
        (fun x => decide (x ∈ gold_ids.dedup))).Nodup :=
      List.Nodup.filter _ (List.nodup_dedup _)
    have hnum : ((retrieved_ids.take k).dedup.filter
        (fun x => decide (x ∈ gold_ids.dedup))).length =
        ((retrieved_ids.take k).toFinset ∩ gold_ids.toFinset).card := by
      rw [← List.toFinset_card_of_nodup hnodup]
      congr 1
      ext x
      simp [List.mem_dedup, List.mem_filter]
    rw [hnum, List.card_toFinset]

/-- Spec scenario for Recall at k: retrieved [5, 12, 7], gold [12, 99], k = 3
gives 1/2. -/
theorem recall_at_k_example : recall_at_k [5, 12, 7] [12, 99] 3 = 1 / 2 := by
  have h1 : (((List.take 3 ([5, 12, 7] : List Int)).dedup.filter
      (fun x => decide (x ∈ ([12, 99] : List Int).dedup))).length) = 1 := by decide
  have h2 : (([12, 99] : List Int).dedup.length) = 2 := by decide
  unfold recall_at_k
  simp only [h1, h2]
  norm_num

/-- C6: with an empty merged corpus or fewer than 2 claims, summarize_query
returns the record with the input query and an empty perspectives list, for
every generator behaviour (no generator call is made: the result does not
depend on `gen`, `parse` or `cudaAvailable`). -/
theorem summarize_query_precondition (cudaAvailable : Bool)
    (parse : String → Option JsonVal) (gen : Except String String) (query : String)
    (merged_corpus : List Doc) (claims : List String)
    (h : merged_corpus = [] ∨ claims.length < 2) :
    summarize_query cudaAvailable parse gen query merged_corpus claims =
      .ok (.obj [("query", .str query), ("perspectives", .arr [])]) := by
  unfold summarize_query
  have hcond : (merged_corpus.isEmpty = true ∨ claims.length < 2) := by
    rcases h with h | h
    · left
      simp [h]
    · right
      exact h
  rw [if_pos hcond]

/-- C6 witness: empty corpus and a single claim both short-circuit. -/
theorem summarize_query_precondition_witness :
    (([] : List Doc) = [] ∨ (["a"] : List String).length < 2) ∧
    summarize_query false parseEmptyPersp (.error "no gpu") "q" [] ["a"] =
      .ok (.obj [("query", .str "q"), ("perspectives", .arr [])]) :=
  ⟨Or.inl rfl,
    summarize_query_precondition false parseEmptyPersp (.error "no gpu") "q" [] ["a"]
      (Or.inl rfl)⟩

/-- C7: when the guarded generation round trip raises, summarize_query
catches the exception and returns (never raises) a record with exactly 2
perspectives carrying claims[0] and claims[1] unchanged, a perspective text
embedding the error message, and empty evidence_docs. -/
theorem summarize_query_gen_error (parse : String → Option JsonVal) (query : String)
    (merged_corpus : List Doc) (claims : List String) (e : String)
    (c0 c1 : String) (rest : List String)
    (hcorpus : merged_corpus ≠ []) (hclaims : claims = c0 :: c1 :: rest) :
    summarize_query true parse (.error e) query merged_corpus claims =
      .ok (.obj [("query", .str query),
        ("perspectives", .arr [
          .obj [("claim", .str c0),
                ("perspective", .str ("Could not generate perspective due to error: " ++ e)),
                ("evidence_docs", .arr [])],
          .obj [("claim", .str c1),
                ("perspective", .str ("Could not generate perspective due to error: " ++ e)),
                ("evidence_docs", .arr [])]])]) := by
  have hc : ¬(merged_corpus.isEmpty = true ∨ claims.length < 2) := by
    push_neg
    refine ⟨?_, ?_⟩
    · simp [List.isEmpty_iff]
      exact hcorpus
    · subst hclaims
      simp only [List.length_cons]
      omega
  unfold summarize_query
  rw [if_neg hc, if_neg (by simp)]
  subst hclaims
  rfl

/-- C7 witness: a concrete raised generation error is converted into the
two-perspective degraded record. -/
theorem summarize_query_gen_error_witness :
    ([docA] : List Doc) ≠ [] ∧
    summarize_query true parseEmptyPersp (.error "boom") "q" [docA] ["a", "b"] =
      .ok (.obj [("query", .str "q"),
        ("perspectives", .arr [
          .obj [("claim", .str "a"),
                ("perspective", .str ("Could not generate perspective due to error: " ++ "boom")),
                ("evidence_docs", .arr [])],
          .obj [("claim", .str "b"),
                ("perspective", .str ("Could not generate perspective due to error: " ++ "boom")),
                ("evidence_docs", .arr [])]])]) :=
  ⟨by decide,
    summarize_query_gen_error parseEmptyPersp "q" [docA] ["a", "b"] "boom" "a" "b" []
      (by decide) rfl⟩

/-- C8: when the generation text has no delimited block, or its last block
does not parse, summarize_query returns the fallback record: both
perspectives carry the claim texts unchanged, the raw generated text as
perspective, and as evidence_docs the ids of the first 3 merged-corpus
documents (fewer when the corpus is shorter), identically in both. -/
theorem summarize_query_parse_fallback (parse : String → Option JsonVal) (query : String)
    (merged_corpus : List Doc) (claims : List String) (text : String)
    (c0 c1 : String) (rest : List String)
    (hcorpus : merged_corpus ≠ []) (hclaims : claims = c0 :: c1 :: rest)
    (hfb : ∀ b bs, findBlocks text.data = b :: bs →
      parse (pyStrip (String.mk ((b :: bs).getLastD []))) = none) :
    summarize_query true parse (.ok text) query merged_corpus claims =
      .ok (.obj [("perspectives", .arr [
          .obj [("claim", .str c0), ("perspective", .str text),
                ("evidence_docs", .arr ((merged_corpus.take 3).map (fun doc => doc.id.toJson)))],
          .obj [("claim", .str c1), ("perspective", .str text),
                ("evidence_docs", .arr ((merged_corpus.take 3).map (fun doc => doc.id.toJson)))]]),
        ("query", .str query)]) := by
  have hc : ¬(merged_corpus.isEmpty = true ∨ claims.length < 2) := by
    push_neg
    refine ⟨?_, ?_⟩
    · simp [List.isEmpty_iff]
      exact hcorpus
    · subst hclaims
      simp only [List.length_cons]
      omega
  unfold summarize_query
  rw [if_neg hc, if_neg (by simp)]
  cases hb : findBlocks text.data with
  | nil =>
    simp only [hb]
    subst hclaims
    rfl
  | cons b bs =>
    simp only [hb, hfb b bs hb]
    subst hclaims
    rfl

/-- C8 witness: a generation text with no delimited block yields the
fallback record grounded on the single corpus document's id. -/
theorem summarize_query_parse_fallback_witness :
    ([docA] : List Doc) ≠ [] ∧
    summarize_query true (fun _ => none) (.ok "no delimited block") "q" [docA] ["a", "b"] =
      .ok (.obj [("perspectives", .arr [
          .obj [("claim", .str "a"), ("perspective", .str "no delimited block"),
                ("evidence_docs", .arr ((([docA] : List Doc).take 3).map (fun doc => doc.id.toJson)))],
          .obj [("claim", .str "b"), ("perspective", .str "no delimited block"),
                ("evidence_docs", .arr ((([docA] : List Doc).take 3).map (fun doc => doc.id.toJson)))]]),
        ("query", .str "q")]) :=
  ⟨by decide,
    summarize_query_parse_fallback (fun _ => none) "q" [docA] ["a", "b"] "no delimited block"
      "a" "b" [] (by decide) rfl (fun _ _ _ => rfl)⟩

/-- C2 (amended): for EVERY generation text whose last delimited block
parses as a JSON object, summarize_query returns exactly that parsed object
with the query field attached — the code performs no structural validation,
and the perspectives field (present or absent, of any arity) passes through
unchanged, so the result has 2 perspectives aligned to claims[0]/claims[1]
exactly when the parsed object itself does. -/
theorem summarize_query_parsed_object (parse : String → Option JsonVal) (query : String)
    (merged_corpus : List Doc) (claims : List String) (text : String)
    (c0 c1 : String) (rest : List String) (b : List Char) (bs : List (List Char))
    (fields : List (String × JsonVal))
    (hcorpus : merged_corpus ≠ []) (hclaims : claims = c0 :: c1 :: rest)
    (hblocks : findBlocks text.data = b :: bs)
    (hparse : parse (pyStrip (String.mk ((b :: bs).getLastD []))) = some (.obj fields)) :
    summarize_query true parse (.ok text) query merged_corpus claims =
      .ok (.obj (dictInsert fields "query" (.str query))) ∧
    dictGet (dictInsert fields "query" (.str query)) "perspectives" =
      dictGet fields "perspectives" := by
  have hc : ¬(merged_corpus.isEmpty = true ∨ claims.length < 2) := by
    push_neg
    refine ⟨?_, ?_⟩
    · simp [List.isEmpty_iff]
      exact hcorpus
    · subst hclaims
      simp only [List.length_cons]
      omega
  constructor
  · unfold summarize_query
    rw [if_neg hc, if_neg (by simp)]
    simp only [hblocks, hparse]
    rfl
  · exact dictGet_dictInsert_ne fields "query" "perspectives" (.str query) (by decide)

/-- C2 witness: a parsed block whose perspectives array has two entries
passes through with the query attached, its perspectives untouched. -/
theorem summarize_query_parsed_object_witness :
    summarize_query true parseTwoPersp (.ok textTwoPersp) "q" [docA] ["a", "b"] =
      .ok (.obj (dictInsert [("perspectives", JsonVal.arr [JsonVal.num 1, JsonVal.num 2])]
        "query" (JsonVal.str "q"))) ∧
    dictGet (dictInsert [("perspectives", JsonVal.arr [JsonVal.num 1, JsonVal.num 2])]
      "query" (JsonVal.str "q")) "perspectives" =
      dictGet [("perspectives", JsonVal.arr [JsonVal.num 1, JsonVal.num 2])] "perspectives" :=
  summarize_query_parsed_object parseTwoPersp "q" [docA] ["a", "b"] textTwoPersp "a" "b" []
    ("\x7b\"perspectives\": [1, 2]\x7d".data) []
    [("perspectives", JsonVal.arr [JsonVal.num 1, JsonVal.num 2])]
    (by decide) rfl rfl rfl

/-- C2 counterexample: the extraction succeeds and the block parses as JSON
(to an object with an EMPTY perspectives array), yet the returned Summary
Record has zero perspectives, not the claimed exactly 2 aligned to the
claims — the code returns the parsed structure without validation. -/
theorem summarize_query_parsed_empty_counterexample :
    parseEmptyPersp (pyStrip (String.mk ((findBlocks textEmptyPersp.data).getLastD []))) =
      some (.obj [("perspectives", .arr [])]) ∧
    summarize_query true parseEmptyPersp (.ok textEmptyPersp) "q" [docA] ["a", "b"] =
      .ok (.obj [("perspectives", .arr []), ("query", .str "q")]) :=
  ⟨rfl, rfl⟩

lemma query_field_genErrorFallback (query : String) (claims : List String) (e : String) :
    ∃ fields, genErrorFallback query claims e = .obj fields ∧
      dictGet fields "query" = some (.str query) :=
  ⟨_, rfl, rfl⟩

lemma query_field_attachQuery (query : String) (j j' : JsonVal)
    (h : attachQuery query j = .ok j') :
    ∃ fields, j' = .obj fields ∧ dictGet fields "query" = some (.str query) := by
  cases j with
  | obj fields =>
    injection h with h'
    subst h'
    exact ⟨_, rfl, dictGet_dictInsert_self fields "query" (.str query)⟩
  | str s => exact Except.noConfusion h
  | num q => exact Except.noConfusion h
  | bool b => exact Except.noConfusion h
  | null => exact Except.noConfusion h
  | arr xs => exact Except.noConfusion h

lemma query_field_of_guard (query : String) (claims : List String)
    (x : Except String JsonVal) (j : JsonVal)
    (hx : ∀ s, x = .ok s → ∃ fields, s = .obj fields ∧
      dictGet fields "query" = some (.str query))
    (h : (match x with
      | .ok summary => (Except.ok summary : Except String JsonVal)
      | .error e => Except.ok (genErrorFallback query claims e)) = Except.ok j) :
    ∃ fields, j = .obj fields ∧ dictGet fields "query" = some (.str query) := by
  cases x with
  | ok s =>
    injection h with h'
    subst h'
    exact hx s rfl
  | error e =>
    injection h with h'
    subst h'
    exact query_field_genErrorFallback query claims e

/-- C10: every record summarize_query actually returns — short-circuit,
successful extraction, either fallback, and the caught generation error
(including the TypeError raised by attaching the query to a parsed non-object
inside the guarded region) — is an object whose query field is the input
query. -/
theorem summarize_query_query_field (cudaAvailable : Bool)
    (parse : String → Option JsonVal) (gen : Except String String) (query : String)
    (merged_corpus : List Doc) (claims : List String) (j : JsonVal)
    (h : summarize_query cudaAvailable parse gen query merged_corpus claims = .ok j) :
    ∃ fields, j = .obj fields ∧ dictGet fields "query" = some (.str query) := by
  unfold summarize_query at h
  by_cases hpre : (merged_corpus.isEmpty = true ∨ claims.length < 2)
  · rw [if_pos hpre] at h
    injection h with h'
    subst h'
    exact ⟨_, rfl, rfl⟩
  · rw [if_neg hpre] at h
    by_cases hcuda : cudaAvailable = false
    · rw [if_pos hcuda] at h
      exact Except.noConfusion h
    · rw [if_neg hcuda] at h
      cases gen with
      | error e =>
        exact query_field_of_guard query claims (.error e) j
          (fun s hs => Except.noConfusion hs) h
      | ok text =>
        have h1 : (match (match findBlocks text.data with
              | [] => attachQuery query (fallbackSummary text claims merged_corpus)
              | b :: bs =>
                match parse (pyStrip (String.mk ((b :: bs).getLastD []))) with
                | some summary_data => attachQuery query summary_data
                | none => attachQuery query (fallbackSummary text claims merged_corpus)) with
            | .ok summary => (Except.ok summary : Except String JsonVal)
            | .error e => Except.ok (genErrorFallback query claims e)) = Except.ok j := h
        cases hb : findBlocks text.data with
        | nil =>
          rw [hb] at h1
          exact query_field_of_guard query claims
            (attachQuery query (fallbackSummary text claims merged_corpus)) j
            (fun s hs => query_field_attachQuery query _ s hs) h1
        | cons b bs =>
          rw [hb] at h1
          have h2 : (match (match parse (pyStrip (String.mk ((b :: bs).getLastD []))) with
                | some summary_data => attachQuery query summary_data
                | none => attachQuery query (fallbackSummary text claims merged_corpus)) with
              | .ok summary => (Except.ok summary : Except String JsonVal)
              | .error e => Except.ok (genErrorFallback query claims e)) = Except.ok j := h1
          cases hp : parse (pyStrip (String.mk ((b :: bs).getLastD []))) with
          | some summary_data =>
            rw [hp] at h2
            exact query_field_of_guard query claims (attachQuery query summary_data) j
              (fun s hs => query_field_attachQuery query _ s hs) h2
          | none =>
            rw [hp] at h2
            exact query_field_of_guard query claims
              (attachQuery query (fallbackSummary text claims merged_corpus)) j
              (fun s hs => query_field_attachQuery query _ s hs) h2

/-- C10 witness: the parsed-non-object path — the block parses to a JSON
array, the query-attachment raises inside the guarded region, the handler
returns the degraded record — still carries the input query. -/
theorem summarize_query_query_field_witness :
    summarize_query true parseArrayBlock (.ok textArrayBlock) "q" [docA] ["a", "b"] =
      .ok (genErrorFallback "q" ["a", "b"] "'list' object does not support item assignment") ∧
    ∃ fields, genErrorFallback "q" ["a", "b"]
        "'list' object does not support item assignment" = .obj fields ∧
      dictGet fields "query" = some (.str "q") :=
  ⟨rfl, summarize_query_query_field true parseArrayBlock (.ok textArrayBlock) "q" [docA]
    ["a", "b"] _ rfl⟩
